import Mathlib

/-!
Verification of the port-publishing and node-addressing subsystem of the
k3d repository (cli/commands.go, cli/cluster.go, cli/container.go and the
run-package helpers).  Go strings are modelled as lists of characters,
Go maps as association lists that record insertion order, and fallible Go
functions as `Except` values.  The docker helper package
github.com/docker/go-connections/nat, which the repository calls for port
parsing, is modelled from its published source.
-/

/-- A Go string, modelled as its list of characters. -/
abbrev GStr := List Char

instance exceptDecEq {e a : Type} [DecidableEq e] [DecidableEq a] :
    DecidableEq (Except e a) := fun x y =>
  match x, y with
  | .error e1, .error e2 =>
    if h : e1 = e2 then isTrue (by rw [h]) else isFalse (fun hh => by cases hh; exact h rfl)
  | .ok a1, .ok a2 =>
    if h : a1 = a2 then isTrue (by rw [h]) else isFalse (fun hh => by cases hh; exact h rfl)
  | .error _, .ok _ => isFalse (fun hh => by cases hh)
  | .ok _, .error _ => isFalse (fun hh => by cases hh)

/-- Go strings.Split for a single-character separator: splits the string at
every occurrence of the separator; the result is always non-empty. -/
def splitOnChar (sep : Char) : GStr → List GStr
  | [] => [[]]
  | c :: cs =>
    match splitOnChar sep cs with
    | [] => if c = sep then [[], []] else [[c]]
    | r :: rs => if c = sep then [] :: r :: rs else (c :: r) :: rs

/-- The character printed for one decimal digit by Go's %d formatting. -/
def digitChar (n : Nat) : Char :=
  if n = 0 then '0' else if n = 1 then '1' else if n = 2 then '2'
  else if n = 3 then '3' else if n = 4 then '4' else if n = 5 then '5'
  else if n = 6 then '6' else if n = 7 then '7' else if n = 8 then '8' else '9'

/-- Fuel-driven decimal rendering of a natural number (least significant digit
first into the accumulator), as produced by Go's strconv.FormatUint. -/
def natToStrAux : Nat → Nat → GStr → GStr
  | 0, _, acc => acc
  | fuel + 1, n, acc =>
    let acc2 := digitChar (n % 10) :: acc
    if n < 10 then acc2 else natToStrAux fuel (n / 10) acc2

/-- Decimal rendering of a natural number, as Go fmt.Sprintf("%d", n). -/
def natToStr (n : Nat) : GStr := natToStrAux (n + 1) n []

/-- Decimal rendering of a (possibly negative) integer, as Go %d on int. -/
def intToStr (i : Int) : GStr :=
  if i < 0 then '-' :: natToStr i.natAbs else natToStr i.toNat

/-- Value of a string of decimal digits. -/
def digitsToNat (s : GStr) : Nat := s.foldl (fun a c => a * 10 + (c.toNat - 48)) 0

/-- Model of Go strconv.ParseUint(s, 10, 16): succeeds exactly on non-empty
all-digit strings whose value fits in 16 bits. -/
def parseUint16 (s : GStr) : Option Nat :=
  if s ≠ [] ∧ s.all Char.isDigit = true ∧ digitsToNat s ≤ 65535 then
    some (digitsToNat s)
  else none

/-- Go strings.ToLower restricted to ASCII, as used on protocol names. -/
def toLowerStr (s : GStr) : GStr := s.map Char.toLower

/-- Lookup in a Go map modelled as an association list. -/
def alistLookup {a b : Type} [DecidableEq a] : List (a × b) → a → Option b
  | [], _ => none
  | (k0, v0) :: rest, k => if k0 = k then some v0 else alistLookup rest k

/-- Insert-or-update in a Go map modelled as an association list: an existing
key is updated in place, a new key is appended. -/
def alistInsert {a b : Type} [DecidableEq a] : List (a × b) → a → b → List (a × b)
  | [], k, v => [(k, v)]
  | (k0, v0) :: rest, k, v =>
    if k0 = k then (k, v) :: rest else (k0, v0) :: alistInsert rest k v

/-! ## Model of github.com/docker/go-connections/nat (vendored dependency) -/

/-- nat.PortBinding: a host IP / host port pair. -/
structure PortBinding where
  HostIP : GStr
  HostPort : GStr
deriving DecidableEq

/-- nat.PortMapping: an exposed port key (such as "80/tcp") with one binding. -/
structure PortMapping where
  Port : GStr
  Binding : PortBinding
deriving DecidableEq

/-- nat.ParsePort: empty string parses to 0 with no error, otherwise
strconv.ParseUint(s, 10, 16). -/
def ParsePort (rawPort : GStr) : Except GStr Nat :=
  if rawPort.length = 0 then .ok 0
  else
    match parseUint16 rawPort with
    | some p => .ok p
    | none => .error rawPort

/-- nat.ParsePort with the error discarded, as in the repository's Offset
(`port, _ := nat.ParsePort(b.HostPort)`): the error case yields 0. -/
def ParsePortD (rawPort : GStr) : Nat :=
  match ParsePort rawPort with
  | .ok p => p
  | .error _ => 0

/-- nat.splitParts: splits "ip:hostPort:containerPort" on colons. -/
def splitParts (rawport : GStr) : GStr × GStr × GStr :=
  let parts := splitOnChar ':' rawport
  let n := parts.length
  let containerPort := parts.getLastD []
  if n = 1 then ([], [], containerPort)
  else if n = 2 then ([], parts.headD [], containerPort)
  else if n = 3 then (parts.headD [], (parts.drop 1).headD [], containerPort)
  else (List.intercalate [':'] (parts.take (n - 2)), (parts.drop (n - 2)).headD [], containerPort)

/-- nat.SplitProtoPort: splits "port/proto", defaulting the protocol to tcp. -/
def SplitProtoPort (rawPort : GStr) : GStr × GStr :=
  let parts := splitOnChar '/' rawPort
  let l := parts.length
  if rawPort.length = 0 ∨ l = 0 ∨ (parts.headD []).length = 0 then ([], [])
  else if l = 1 then ("tcp".toList, rawPort)
  else if ((parts.drop 1).headD []).length = 0 then ("tcp".toList, parts.headD [])
  else ((parts.drop 1).headD [], parts.headD [])

/-- nat.ParsePortRange: a single port or "start-end", each within 0..65535. -/
def ParsePortRange (ports : GStr) : Except GStr (Nat × Nat) :=
  if ports = [] then .error ports
  else if '-' ∈ ports then
    match parseUint16 ((splitOnChar '-' ports).headD []),
          parseUint16 (((splitOnChar '-' ports).drop 1).headD []) with
    | some s, some e => if e < s then .error ports else .ok (s, e)
    | _, _ => .error ports
  else
    match parseUint16 ports with
    | some n => .ok (n, n)
    | none => .error ports

/-- nat.validateProto. -/
def validateProto (proto : GStr) : Bool :=
  proto = "tcp".toList ∨ proto = "udp".toList ∨ proto = "sctp".toList

/-- nat.NewPort: renders a port (or port range) with its protocol. -/
def NewPort (proto port : GStr) : Except GStr GStr :=
  match ParsePortRange port with
  | .error e => .error e
  | .ok r =>
    if r.1 = r.2 then .ok (natToStr r.1 ++ ['/'] ++ proto)
    else .ok (natToStr r.1 ++ ['-'] ++ natToStr r.2 ++ ['/'] ++ proto)

/-- Model of the bracket stripping nat.ParsePortSpec performs through Go's
net.SplitHostPort(rawIP + ":"): surrounding square brackets of an IPv6
literal are removed; an unbracketed colon (or stray bracket) is an error. -/
def stripBrackets (rawIP : GStr) : Except GStr GStr :=
  match rawIP with
  | '[' :: rest => if rest.getLastD ' ' = ']' then .ok rest.dropLast else .error rawIP
  | _ => if ':' ∈ rawIP ∨ '[' ∈ rawIP ∨ ']' ∈ rawIP then .error rawIP else .ok rawIP

/-- Model of Go net.ParseIP (standard library): dotted-quad IPv4 literals,
and colon-containing strings treated as IPv6 literals made of hexadecimal
digits, colons and dots.  No claim of this development constrains the
host-IP grammar, so this level of detail is sufficient. -/
def validIP (ip : GStr) : Bool :=
  if ':' ∈ ip then
    ip.all (fun c => c.isDigit || (decide ('a' ≤ c) && decide (c ≤ 'f')) ||
      (decide ('A' ≤ c) && decide (c ≤ 'F')) || decide (c = ':') || decide (c = '.'))
  else
    decide ((splitOnChar '.' ip).length = 4) &&
    (splitOnChar '.' ip).all (fun p =>
      (!p.isEmpty) && decide (p.length ≤ 3) && p.all Char.isDigit &&
      decide (digitsToNat p ≤ 255) && (decide (p.headD '0' ≠ '0') || decide (p.length = 1)))

/-- The port-mapping loop at the end of nat.ParsePortSpec: one mapping per
container port in the range; the host port is re-rendered each iteration
when present, and becomes "start-end" for a host range on a single
container port. -/
def buildMappingsAux (ip hostPort protoLower : GStr) (cr hr : Nat × Nat) :
    List Nat → List PortMapping → Except GStr (List PortMapping)
  | [], acc => .ok acc
  | i :: rest, acc =>
    match NewPort protoLower (natToStr (cr.1 + i)) with
    | .error e => .error e
    | .ok port =>
      let hp0 := if 0 < hostPort.length then natToStr (hr.1 + i) else hostPort
      let hp := if cr.1 = cr.2 ∧ ¬ (hr.1 = hr.2) then hp0 ++ ['-'] ++ natToStr hr.2 else hp0
      buildMappingsAux ip hostPort protoLower cr hr rest (acc ++ [⟨port, ⟨ip, hp⟩⟩])

/-- The validation cascade of nat.ParsePortSpec, on the already-split parts:
IP checks, container-port range, host-port range, range-length agreement,
protocol; then the mapping loop. -/
def parsePortSpecCore (rawPort rawIP hostPort proto containerPort : GStr) :
    Except GStr (List PortMapping) :=
  match stripBrackets rawIP with
  | .error _ => .error rawPort
  | .ok ip =>
    if ip ≠ [] ∧ validIP ip = false then .error rawPort
    else if containerPort = [] then .error rawPort
    else
      match ParsePortRange containerPort with
      | .error _ => .error rawPort
      | .ok cr =>
        match (if 0 < hostPort.length then ParsePortRange hostPort else .ok (0, 0)) with
        | .error _ => .error rawPort
        | .ok hr =>
          if hostPort ≠ [] ∧ ¬ (cr.2 - cr.1 = hr.2 - hr.1) ∧ ¬ (cr.1 = cr.2) then
            .error rawPort
          else if validateProto (toLowerStr proto) = false then .error rawPort
          else buildMappingsAux ip hostPort (toLowerStr proto) cr hr
            (List.range (cr.2 - cr.1 + 1)) []

/-- nat.ParsePortSpec: parses one "ip:hostPort:containerPort/proto" string. -/
def ParsePortSpec (rawPort : GStr) : Except GStr (List PortMapping) :=
  parsePortSpecCore rawPort (splitParts rawPort).1 (splitParts rawPort).2.1
    (SplitProtoPort (splitParts rawPort).2.2).1 (SplitProtoPort (splitParts rawPort).2.2).2

/-- Adding one nat.PortMapping into the exposed-port set and binding map, the
common step of nat.ParsePortSpecs and of the repository's AddPort: the port
is added to the exposed set when missing, and the binding is appended to the
port's (possibly fresh) binding list. -/
def addPortMapping (acc : List GStr × List (GStr × List PortBinding)) (pm : PortMapping) :
    List GStr × List (GStr × List PortBinding) :=
  let ex := if pm.Port ∈ acc.1 then acc.1 else acc.1 ++ [pm.Port]
  let cur := (alistLookup acc.2 pm.Port).getD []
  (ex, alistInsert acc.2 pm.Port (cur ++ [pm.Binding]))

/-- The loop of nat.ParsePortSpecs: the first parse error aborts. -/
def ParsePortSpecsAux (acc : List GStr × List (GStr × List PortBinding)) :
    List GStr → Except GStr (List GStr × List (GStr × List PortBinding))
  | [] => .ok acc
  | p :: ps =>
    match ParsePortSpec p with
    | .error e => .error e
    | .ok pms => ParsePortSpecsAux (pms.foldl addPortMapping acc) ps

/-- nat.ParsePortSpecs: builds the exposed-port set and binding map from a
list of raw specs. -/
def ParsePortSpecs (ports : List GStr) :
    Except GStr (List GStr × List (GStr × List PortBinding)) :=
  ParsePortSpecsAux ([], []) ports

example : ParsePortSpec ("80:80".toList) =
    .ok [⟨"80/tcp".toList, ⟨[], "80".toList⟩⟩] := by decide

example : ParsePortSpec ("99999:80".toList) = .error ("99999:80".toList) := by decide

example : ParsePortSpec ("6443:6443".toList) =
    .ok [⟨"6443/tcp".toList, ⟨[], "6443".toList⟩⟩] := by decide

/-! ## The repository's run package -/

/-- run.ValidateHostname (cli config helper): non-empty, no leading or
trailing dash, characters restricted to letters, digits and dash. -/
def ValidateHostname (name : GStr) : Except GStr Unit :=
  if name.length = 0 then .error name
  else if name.headD ' ' = '-' ∨ name.getLastD ' ' = '-' then .error name
  else if name.all (fun c => (decide ('0' ≤ c) && decide (c ≤ '9')) ||
      (decide ('a' ≤ c) && decide (c ≤ 'z')) ||
      (decide ('A' ≤ c) && decide (c ≤ 'Z')) || decide (c = '-')) then .ok ()
  else .error name

/-- run.PublishedPorts (cli/commands.go): exposed-port set and
port-bindings map, keyed by nat.Port strings such as "80/tcp". -/
structure PublishedPorts where
  ExposedPorts : List GStr
  PortBindings : List (GStr × List PortBinding)
deriving DecidableEq

/-- run.defaultNodes (cli/commands.go line 431): the node type on which a
port is exposed when the publish spec names none. -/
def defaultNodes : GStr := "server".toList

/-- run.nodeRuleGroupsMap (cli/commands.go lines 434-437): the role-group
membership table; an unknown role looks up to the empty list (nil). -/
def nodeRuleGroupsMap (role : GStr) : List GStr :=
  if role = "worker".toList then ["all".toList, "workers".toList]
  else if role = "server".toList then ["all".toList, "server".toList, "master".toList]
  else []

/-- The node-specifier loop inside run.validatePortSpecs: each specifier
after the first "@" must pass ValidateHostname; the first failure aborts. -/
def validateNodeSpecifiers : List GStr → Except GStr Unit
  | [] => .ok ()
  | n :: rest =>
    match ValidateHostname n with
    | .error e => .error e
    | .ok _ => validateNodeSpecifiers rest

/-- run.validatePortSpecs (cli/commands.go lines 503-519): for every spec,
the part before the first "@" must parse by nat.ParsePortSpec and every
node specifier must be a valid hostname; the first failing spec aborts with
an error naming it. -/
def validatePortSpecs : List GStr → Except GStr Unit
  | [] => .ok ()
  | spec :: rest =>
    match ParsePortSpec ((splitOnChar '@' spec).headD []) with
    | .error _ => .error spec
    | .ok _ =>
      match validateNodeSpecifiers ((splitOnChar '@' spec).drop 1) with
      | .error _ => .error spec
      | .ok _ => validatePortSpecs rest

/-- run.extractNodes (cli/commands.go lines 526-541): split on "@"; element
0 is the binding portion, the rest are node specifiers; no specifier
defaults to the single specifier defaultNodes. -/
def extractNodes (spec : GStr) : List GStr × GStr :=
  let atSplit := splitOnChar '@' spec
  let portSpec := atSplit.headD []
  let nodes0 : List GStr := if 1 < atSplit.length then atSplit.drop 1 else []
  (if nodes0.length = 0 then nodes0 ++ [defaultNodes] else nodes0, portSpec)

/-- The valid node specifiers of run.mapNodesToPortSpecs: the four role
keywords followed by the created container names. -/
def possibleNodeSpecifiers (createdNodes : List GStr) : List GStr :=
  ["all".toList, "workers".toList, "server".toList, "master".toList] ++ createdNodes

/-- Result of run.mapNodesToPortSpecs: the node-to-port-spec map, plus the
(specifier, full spec) pairs logged by the unknown-node-specifier warning. -/
structure ResolveResult where
  map : List (GStr × List GStr)
  warnings : List (GStr × GStr)
deriving DecidableEq

/-- `nodeToPortSpecMap[node] = append(nodeToPortSpecMap[node], portSpec)`. -/
def registerNode (m : List (GStr × List GStr)) (node portSpec : GStr) :
    List (GStr × List GStr) :=
  alistInsert m node ((alistLookup m node).getD [] ++ [portSpec])

/-- The per-specifier body of run.mapNodesToPortSpecs: a valid specifier
registers the binding portion, an unknown one is recorded as a warning. -/
def resolveNode (poss : List GStr) (portSpec spec : GStr) (st : ResolveResult)
    (node : GStr) : ResolveResult :=
  if node ∈ poss then { st with map := registerNode st.map node portSpec }
  else { st with warnings := st.warnings ++ [(node, spec)] }

/-- The per-spec body of run.mapNodesToPortSpecs: extract the specifiers
(re-defaulting an empty list, as the source re-checks) and process each. -/
def resolveSpec (poss : List GStr) (st : ResolveResult) (spec : GStr) : ResolveResult :=
  let np := extractNodes spec
  let nodes := if np.1.length = 0 then np.1 ++ [defaultNodes] else np.1
  nodes.foldl (resolveNode poss np.2 spec) st

/-- run.mapNodesToPortSpecs (cli/commands.go lines 440-482): validate all
specs, then build the node-to-port-spec map over the valid specifiers. -/
def mapNodesToPortSpecs (specs createdNodes : List GStr) : Except GStr ResolveResult :=
  match validatePortSpecs specs with
  | .error e => .error e
  | .ok _ => .ok (specs.foldl (resolveSpec (possibleNodeSpecifiers createdNodes)) ⟨[], []⟩)

/-- run.CreatePublishedPorts (cli/commands.go lines 486-498): empty input
yields the empty-but-valid structure, otherwise nat.ParsePortSpecs. -/
def CreatePublishedPorts (specs : List GStr) : Except GStr PublishedPorts :=
  if specs.length = 0 then .ok ⟨[], []⟩
  else
    match ParsePortSpecs specs with
    | .error e => .error e
    | .ok r => .ok ⟨r.1, r.2⟩

/-- run.PublishedPorts.Offset (cli/commands.go lines 544-563): copies the
exposed ports, and rebuilds every binding with the host port re-rendered as
`fmt.Sprintf("%d", port*offset)` where `port, _ := nat.ParsePort(HostPort)`
(the source multiplies; the comment on line 558 reads "offset
multiplication"). -/
def PublishedPorts.Offset (p : PublishedPorts) (offset : Int) : PublishedPorts :=
  { ExposedPorts := p.ExposedPorts,
    PortBindings := p.PortBindings.map (fun kv =>
      (kv.1, kv.2.map (fun b =>
        PortBinding.mk b.HostIP (intToStr ((ParsePortD b.HostPort : Int) * offset))))) }

/-- run.PublishedPorts.AddPort (cli/commands.go lines 566-599): parse the
spec, copy both maps, and fold the new mappings in. -/
def PublishedPorts.AddPort (p : PublishedPorts) (portSpec : GStr) :
    Except GStr PublishedPorts :=
  match ParsePortSpec portSpec with
  | .error e => .error e
  | .ok pms =>
    let r := pms.foldl addPortMapping (p.ExposedPorts, p.PortBindings)
    .ok ⟨r.1, r.2⟩

/-- The membership-tested append of run.MergePortSpecs. -/
def appendIfAbsent (acc : List GStr) (v : GStr) : List GStr :=
  if v ∈ acc then acc else acc ++ [v]

/-- Go map read with nil default, as used on nodeToPortSpecMap. -/
def lookupSpecs (m : List (GStr × List GStr)) (k : GStr) : List GStr :=
  (alistLookup m k).getD []

/-- run.MergePortSpecs (cli/commands.go lines 602-634): append the specs of
each of the role's groups (in table order), then the specs registered under
the container name, skipping strings already present. -/
def MergePortSpecs (m : List (GStr × List GStr)) (role name : GStr) : List GStr :=
  let fromGroups := (nodeRuleGroupsMap role).foldl
    (fun acc group => (lookupSpecs m group).foldl appendIfAbsent acc) []
  (lookupSpecs m name).foldl appendIfAbsent fromGroups

/-- run.defaultContainerNamePrefix (cli/cluster.go). -/
def defaultContainerNamePrefix : GStr := "k3d".toList

/-- run.GetContainerName (cli/cluster.go lines 35-40): "k3d-name-role-i"
for a non-negative postfix, "k3d-name-role" otherwise. -/
def GetContainerName (role clusterName : GStr) (pfix : Int) : GStr :=
  if 0 ≤ pfix then
    defaultContainerNamePrefix ++ ['-'] ++ clusterName ++ ['-'] ++ role ++ ['-'] ++ intToStr pfix
  else defaultContainerNamePrefix ++ ['-'] ++ clusterName ++ ['-'] ++ role

/-- run.GetAllContainerNames (cli/cluster.go lines 43-52): server names with
postfixes 0..serverCount-1, then worker names with postfixes
0..workerCount-1. -/
def GetAllContainerNames (clusterName : GStr) (serverCount workerCount : Nat) : List GStr :=
  ((List.range serverCount).map (fun i => GetContainerName ("server".toList) clusterName i)) ++
  ((List.range workerCount).map (fun i => GetContainerName ("worker".toList) clusterName i))

/-- The server-side port pipeline of run.CreateCluster and run.createServer:
resolve the publish specs, merge for the server container (whose name is
built with postfix -1), append the API port spec and build. -/
def clusterServerPublishedPorts (publishSpecs createdNodes : List GStr)
    (clusterName apiPortSpec : GStr) : Except GStr PublishedPorts :=
  match mapNodesToPortSpecs publishSpecs createdNodes with
  | .error e => .error e
  | .ok r =>
    CreatePublishedPorts
      (MergePortSpecs r.map ("server".toList)
        (GetContainerName ("server".toList) clusterName (-1)) ++ [apiPortSpec])

/-- A publish spec whose host-port field (second colon-part of the binding
portion) is a decimal numeral above 65535, such as "99999:80". -/
def hostPortOutOfRange (spec : GStr) : Prop :=
  (splitParts ((splitOnChar '@' spec).headD [])).2.1 ≠ [] ∧
  (splitParts ((splitOnChar '@' spec).headD [])).2.1.all Char.isDigit = true ∧
  65535 < digitsToNat ((splitParts ((splitOnChar '@' spec).headD [])).2.1)

/-- The invariant of §3 of the specification: every key of the
port-bindings map is also a key of the exposed-ports map. -/
def PublishedPorts.bindingKeysExposed (p : PublishedPorts) : Prop :=
  ∀ kv ∈ p.PortBindings, kv.1 ∈ p.ExposedPorts

example : mapNodesToPortSpecs ["80:80@bogus@all".toList] [] =
    .ok ⟨[("all".toList, ["80:80".toList])],
         [("bogus".toList, "80:80@bogus@all".toList)]⟩ := by decide

example : GetAllContainerNames ("mycluster".toList) 1 1 =
    ["k3d-mycluster-server-0".toList, "k3d-mycluster-worker-0".toList] := by decide

example : MergePortSpecs
    [("all".toList, ["80:80".toList]), ("k3d-c-worker-0".toList, ["90:90".toList])]
    ("worker".toList) ("k3d-c-worker-0".toList) = ["80:80".toList, "90:90".toList] := by decide

/-! ## General lemmas about the helpers -/

theorem splitOnChar_of_not_mem {sep : Char} :
    ∀ {l : GStr}, sep ∉ l → splitOnChar sep l = [l]
  | [], _ => rfl
  | c :: cs, h => by
    have hc : ¬ (c = sep) := fun e => h (e ▸ List.mem_cons_self c cs)
    have ih : splitOnChar sep cs = [cs] :=
      splitOnChar_of_not_mem (fun m => h (List.mem_cons_of_mem _ m))
    simp [splitOnChar, ih, hc]

theorem natToStrAux_length_le :
    ∀ (fuel n : Nat) (acc : GStr), acc.length ≤ (natToStrAux fuel n acc).length
  | 0, _, _ => le_refl _
  | fuel + 1, n, acc => by
    simp only [natToStrAux]
    by_cases h : n < 10
    · simp [h]
    · simp only [h, if_false]
      calc acc.length ≤ (digitChar (n % 10) :: acc).length := by simp
        _ ≤ _ := natToStrAux_length_le fuel (n / 10) _

theorem natToStr_ne_nil (n : Nat) : natToStr n ≠ [] := by
  have h := natToStrAux_length_le n (n / 10) [digitChar (n % 10)]
  unfold natToStr natToStrAux
  by_cases hn : n < 10
  · simp [hn]
  · simp only [hn, if_false]
    intro he
    rw [he] at h
    simp at h

theorem intToStr_ne_nil (i : Int) : intToStr i ≠ [] := by
  unfold intToStr
  by_cases h : i < 0
  · simp [h]
  · simp only [h, if_false]
    exact natToStr_ne_nil _

theorem alistLookup_alistInsert {a b : Type} [DecidableEq a]
    (m : List (a × b)) (k k2 : a) (v : b) :
    alistLookup (alistInsert m k v) k2 = if k2 = k then some v else alistLookup m k2 := by
  induction m with
  | nil =>
    by_cases h : k2 = k
    · simp [alistInsert, alistLookup, h]
    · have h2 : ¬ (k = k2) := fun e => h e.symm
      simp [alistInsert, alistLookup, h, h2]
  | cons kv rest ih =>
    obtain ⟨k0, v0⟩ := kv
    by_cases h0 : k0 = k
    · by_cases h2 : k2 = k
      · simp [alistInsert, alistLookup, h0, h2]
      · have h3 : ¬ (k = k2) := fun e => h2 e.symm
        have h4 : ¬ (k0 = k2) := fun e => h3 (h0.symm.trans e)
        simp [alistInsert, alistLookup, h0, h2, h3, h4]
    · by_cases h2 : k0 = k2
      · have hk : ¬ (k2 = k) := fun e => h0 (h2.trans e)
        simp [alistInsert, alistLookup, h0, h2, hk]
      · simp [alistInsert, alistLookup, h0, h2, ih]

theorem mem_alistInsert {a b : Type} [DecidableEq a]
    {m : List (a × b)} {k : a} {v : b} {x : a × b} (hx : x ∈ alistInsert m k v) :
    x = (k, v) ∨ x ∈ m := by
  induction m with
  | nil =>
    simp [alistInsert] at hx
    exact Or.inl hx
  | cons kv rest ih =>
    obtain ⟨k0, v0⟩ := kv
    by_cases h0 : k0 = k
    · simp [alistInsert, h0] at hx
      rcases hx with h | h
      · exact Or.inl (by simp [h])
      · exact Or.inr (List.mem_cons_of_mem _ h)
    · simp only [alistInsert, h0, if_false, List.mem_cons] at hx
      rcases hx with h | h
      · exact Or.inr (by simp [h])
      · rcases ih h with h2 | h2
        · exact Or.inl h2
        · exact Or.inr (List.mem_cons_of_mem _ h2)

/-! ## Lemmas about the node-specifier resolver -/

theorem alistLookup_registerNode (m : List (GStr × List GStr)) (n p k : GStr) :
    alistLookup (registerNode m n p) k =
      if k = n then some ((alistLookup m n).getD [] ++ [p]) else alistLookup m k := by
  unfold registerNode
  exact alistLookup_alistInsert m n k _

theorem lookupSpecs_registerNode (m : List (GStr × List GStr)) (n p k : GStr) :
    lookupSpecs (registerNode m n p) k =
      if k = n then lookupSpecs m n ++ [p] else lookupSpecs m k := by
  unfold lookupSpecs
  rw [alistLookup_registerNode]
  by_cases h : k = n <;> simp [h]

theorem resolveNode_lookup_mono (poss : List GStr) (ps sp : GStr) (st : ResolveResult)
    (node k v : GStr) (h : v ∈ lookupSpecs st.map k) :
    v ∈ lookupSpecs (resolveNode poss ps sp st node).map k := by
  unfold resolveNode
  by_cases hp : node ∈ poss
  · simp only [hp, if_true]
    rw [lookupSpecs_registerNode]
    by_cases hk : k = node
    · rw [if_pos hk]
      subst hk
      exact List.mem_append_left _ h
    · simp [hk, h]
  · simp [hp, h]

theorem resolveNode_warnings_mono (poss : List GStr) (ps sp : GStr) (st : ResolveResult)
    (node : GStr) (w : GStr × GStr) (h : w ∈ st.warnings) :
    w ∈ (resolveNode poss ps sp st node).warnings := by
  unfold resolveNode
  by_cases hp : node ∈ poss
  · simp [hp, h]
  · simp only [hp, if_false]
    exact List.mem_append_left _ h

theorem resolveNode_unknown_none (poss : List GStr) (ps sp : GStr) (st : ResolveResult)
    (node k : GStr) (hk : k ∉ poss) (h : alistLookup st.map k = none) :
    alistLookup (resolveNode poss ps sp st node).map k = none := by
  unfold resolveNode
  by_cases hp : node ∈ poss
  · simp only [hp, if_true]
    rw [alistLookup_registerNode]
    have hne : ¬ (k = node) := fun e => hk (e ▸ hp)
    simp [hne, h]
  · simp [hp, h]

theorem foldl_resolveNode_lookup_mono (poss : List GStr) (ps sp : GStr) :
    ∀ (nodes : List GStr) (st : ResolveResult) (k v : GStr),
      v ∈ lookupSpecs st.map k →
      v ∈ lookupSpecs ((nodes.foldl (resolveNode poss ps sp) st).map) k
  | [], _, _, _, h => h
  | n :: rest, st, k, v, h =>
    foldl_resolveNode_lookup_mono poss ps sp rest _ k v
      (resolveNode_lookup_mono poss ps sp st n k v h)

theorem foldl_resolveNode_warnings_mono (poss : List GStr) (ps sp : GStr) :
    ∀ (nodes : List GStr) (st : ResolveResult) (w : GStr × GStr),
      w ∈ st.warnings →
      w ∈ ((nodes.foldl (resolveNode poss ps sp) st).warnings)
  | [], _, _, h => h
  | n :: rest, st, w, h =>
    foldl_resolveNode_warnings_mono poss ps sp rest _ w
      (resolveNode_warnings_mono poss ps sp st n w h)

theorem foldl_resolveNode_unknown_none (poss : List GStr) (ps sp : GStr) :
    ∀ (nodes : List GStr) (st : ResolveResult) (k : GStr), k ∉ poss →
      alistLookup st.map k = none →
      alistLookup ((nodes.foldl (resolveNode poss ps sp) st).map) k = none
  | [], _, _, _, h => h
  | n :: rest, st, k, hk, h =>
    foldl_resolveNode_unknown_none poss ps sp rest _ k hk
      (resolveNode_unknown_none poss ps sp st n k hk h)

theorem foldl_resolveNode_registers (poss : List GStr) (ps sp : GStr) :
    ∀ (nodes : List GStr) (st : ResolveResult) (node : GStr),
      node ∈ nodes → node ∈ poss →
      ps ∈ lookupSpecs ((nodes.foldl (resolveNode poss ps sp) st).map) node := by
  intro nodes
  induction nodes with
  | nil => intro st node h; exact absurd h (List.not_mem_nil node)
  | cons n rest ih =>
    intro st node hmem hposs
    rcases List.mem_cons.mp hmem with he | ht
    · subst he
      rw [List.foldl_cons]
      apply foldl_resolveNode_lookup_mono
      unfold resolveNode
      simp only [hposs, if_true]
      rw [lookupSpecs_registerNode]
      simp
    · rw [List.foldl_cons]
      exact ih _ node ht hposs

theorem foldl_resolveNode_warns (poss : List GStr) (ps sp : GStr) :
    ∀ (nodes : List GStr) (st : ResolveResult) (node : GStr),
      node ∈ nodes → node ∉ poss →
      (node, sp) ∈ ((nodes.foldl (resolveNode poss ps sp) st).warnings) := by
  intro nodes
  induction nodes with
  | nil => intro st node h; exact absurd h (List.not_mem_nil node)
  | cons n rest ih =>
    intro st node hmem hposs
    rcases List.mem_cons.mp hmem with he | ht
    · subst he
      rw [List.foldl_cons]
      apply foldl_resolveNode_warnings_mono
      unfold resolveNode
      simp only [hposs, if_false]
      exact List.mem_append_right _ (List.mem_singleton.mpr rfl)
    · rw [List.foldl_cons]
      exact ih _ node ht hposs

theorem resolveSpec_eq_foldl (poss : List GStr) (st : ResolveResult) (spec : GStr)
    (h : (extractNodes spec).1 ≠ []) :
    resolveSpec poss st spec =
      (extractNodes spec).1.foldl (resolveNode poss (extractNodes spec).2 spec) st := by
  unfold resolveSpec
  have hl : ¬ ((extractNodes spec).1.length = 0) := by
    simpa [List.length_eq_zero] using h
  simp [hl]

theorem extractNodes_fst_ne_nil (spec : GStr) : (extractNodes spec).1 ≠ [] := by
  unfold extractNodes
  by_cases h1 : 1 < (splitOnChar '@' spec).length
  · simp only [h1, if_true]
    by_cases h2 : ((splitOnChar '@' spec).drop 1).length = 0
    · simp [List.length_eq_zero.mp h2]
    · have h3 : (splitOnChar '@' spec).tail ≠ [] := by
        rw [← List.drop_one]
        exact fun he => h2 (by rw [he]; rfl)
      simp only [List.length_eq_zero, List.drop_one]
      simp [h3]
  · simp [h1]

theorem resolveSpec_lookup_mono (poss : List GStr) (st : ResolveResult) (spec k v : GStr)
    (h : v ∈ lookupSpecs st.map k) :
    v ∈ lookupSpecs (resolveSpec poss st spec).map k := by
  unfold resolveSpec
  exact foldl_resolveNode_lookup_mono poss _ spec _ st k v h

theorem resolveSpec_warnings_mono (poss : List GStr) (st : ResolveResult) (spec : GStr)
    (w : GStr × GStr) (h : w ∈ st.warnings) :
    w ∈ (resolveSpec poss st spec).warnings := by
  unfold resolveSpec
  exact foldl_resolveNode_warnings_mono poss _ spec _ st w h

theorem resolveSpec_unknown_none (poss : List GStr) (st : ResolveResult) (spec k : GStr)
    (hk : k ∉ poss) (h : alistLookup st.map k = none) :
    alistLookup (resolveSpec poss st spec).map k = none := by
  unfold resolveSpec
  exact foldl_resolveNode_unknown_none poss _ spec _ st k hk h

theorem resolveSpec_registers (poss : List GStr) (st : ResolveResult) (spec node : GStr)
    (hn : node ∈ (extractNodes spec).1) (hp : node ∈ poss) :
    (extractNodes spec).2 ∈ lookupSpecs (resolveSpec poss st spec).map node := by
  rw [resolveSpec_eq_foldl poss st spec (List.ne_nil_of_mem hn)]
  exact foldl_resolveNode_registers poss _ spec _ st node hn hp

theorem resolveSpec_warns (poss : List GStr) (st : ResolveResult) (spec node : GStr)
    (hn : node ∈ (extractNodes spec).1) (hp : node ∉ poss) :
    (node, spec) ∈ (resolveSpec poss st spec).warnings := by
  rw [resolveSpec_eq_foldl poss st spec (List.ne_nil_of_mem hn)]
  exact foldl_resolveNode_warns poss _ spec _ st node hn hp

theorem foldl_resolveSpec_lookup_mono (poss : List GStr) :
    ∀ (specs : List GStr) (st : ResolveResult) (k v : GStr),
      v ∈ lookupSpecs st.map k →
      v ∈ lookupSpecs ((specs.foldl (resolveSpec poss) st).map) k
  | [], _, _, _, h => h
  | s :: rest, st, k, v, h =>
    foldl_resolveSpec_lookup_mono poss rest _ k v (resolveSpec_lookup_mono poss st s k v h)

theorem foldl_resolveSpec_warnings_mono (poss : List GStr) :
    ∀ (specs : List GStr) (st : ResolveResult) (w : GStr × GStr),
      w ∈ st.warnings →
      w ∈ ((specs.foldl (resolveSpec poss) st).warnings)
  | [], _, _, h => h
  | s :: rest, st, w, h =>
    foldl_resolveSpec_warnings_mono poss rest _ w (resolveSpec_warnings_mono poss st s w h)

theorem foldl_resolveSpec_unknown_none (poss : List GStr) :
    ∀ (specs : List GStr) (st : ResolveResult) (k : GStr), k ∉ poss →
      alistLookup st.map k = none →
      alistLookup ((specs.foldl (resolveSpec poss) st).map) k = none
  | [], _, _, _, h => h
  | s :: rest, st, k, hk, h =>
    foldl_resolveSpec_unknown_none poss rest _ k hk (resolveSpec_unknown_none poss st s k hk h)

theorem foldl_resolveSpec_registers (poss : List GStr) :
    ∀ (specs : List GStr) (st : ResolveResult) (s : GStr), s ∈ specs →
      ∀ node ∈ (extractNodes s).1, node ∈ poss →
      (extractNodes s).2 ∈ lookupSpecs ((specs.foldl (resolveSpec poss) st).map) node := by
  intro specs
  induction specs with
  | nil => intro st s h; exact absurd h (List.not_mem_nil s)
  | cons a rest ih =>
    intro st s hs node hmem hposs
    rcases List.mem_cons.mp hs with he | ht
    · subst he
      rw [List.foldl_cons]
      exact foldl_resolveSpec_lookup_mono poss rest _ node _
        (resolveSpec_registers poss st s node hmem hposs)
    · rw [List.foldl_cons]
      exact ih _ s ht node hmem hposs

theorem foldl_resolveSpec_warns (poss : List GStr) :
    ∀ (specs : List GStr) (st : ResolveResult) (s : GStr), s ∈ specs →
      ∀ node ∈ (extractNodes s).1, node ∉ poss →
      (node, s) ∈ ((specs.foldl (resolveSpec poss) st).warnings) := by
  intro specs
  induction specs with
  | nil => intro st s h; exact absurd h (List.not_mem_nil s)
  | cons a rest ih =>
    intro st s hs node hmem hposs
    rcases List.mem_cons.mp hs with he | ht
    · subst he
      rw [List.foldl_cons]
      exact foldl_resolveSpec_warnings_mono poss rest _ _
        (resolveSpec_warns poss st s node hmem hposs)
    · rw [List.foldl_cons]
      exact ih _ s ht node hmem hposs

/-! ## Lemmas about the merger -/

theorem appendIfAbsent_nodup (acc : List GStr) (v : GStr) (h : acc.Nodup) :
    (appendIfAbsent acc v).Nodup := by
  unfold appendIfAbsent
  by_cases hv : v ∈ acc
  · simp [hv, h]
  · simp only [hv, if_false]
    exact List.Nodup.append h (List.nodup_singleton v)
      (by simpa [List.disjoint_singleton] using hv)

theorem foldl_appendIfAbsent_nodup :
    ∀ (l : List GStr) (acc : List GStr), acc.Nodup → (l.foldl appendIfAbsent acc).Nodup
  | [], _, h => h
  | a :: rest, acc, h =>
    foldl_appendIfAbsent_nodup rest _ (appendIfAbsent_nodup acc a h)

theorem foldl_groups_nodup (m : List (GStr × List GStr)) :
    ∀ (groups : List GStr) (acc : List GStr), acc.Nodup →
      (groups.foldl (fun acc2 group => (lookupSpecs m group).foldl appendIfAbsent acc2) acc).Nodup
  | [], _, h => h
  | _ :: rest, acc, h =>
    foldl_groups_nodup m rest _ (foldl_appendIfAbsent_nodup _ acc h)

theorem MergePortSpecs_nodup (m : List (GStr × List GStr)) (role name : GStr) :
    (MergePortSpecs m role name).Nodup := by
  unfold MergePortSpecs
  exact foldl_appendIfAbsent_nodup _ _ (foldl_groups_nodup m _ [] List.nodup_nil)

/-! ## The claims -/

/-- Claim C1.  The claim states that Offset increases every host-port
binding value by the delta (addition).  The source (cli/commands.go line
558) computes `port*offset` instead: on a PublishedPorts with host port
"80" and delta 3 the code produces host port "240" where addition would
produce "83". -/
theorem offset_applies_multiplication_eval :
    (PublishedPorts.Offset
      ⟨["80/tcp".toList], [("80/tcp".toList, [⟨[], "80".toList⟩])]⟩ 3).PortBindings
      = [("80/tcp".toList, [⟨[], "240".toList⟩])] ∧
    ¬ ((PublishedPorts.Offset
      ⟨["80/tcp".toList], [("80/tcp".toList, [⟨[], "80".toList⟩])]⟩ 3).PortBindings
      = [("80/tcp".toList, [⟨[], "83".toList⟩])]) := by decide

/-- Claim C7.  The claim states Offset(p, 0) is a semantic no-op.  Because
the source multiplies the parsed host port by the offset, delta 0 rewrites
every host port to "0": on a PublishedPorts with host port "80" the result
differs from the input. -/
theorem offset_zero_not_noop_eval :
    (PublishedPorts.Offset
      ⟨["80/tcp".toList], [("80/tcp".toList, [⟨[], "80".toList⟩])]⟩ 0).PortBindings
      = [("80/tcp".toList, [⟨[], "0".toList⟩])] ∧
    ¬ (PublishedPorts.Offset
      ⟨["80/tcp".toList], [("80/tcp".toList, [⟨[], "80".toList⟩])]⟩ 0
      = ⟨["80/tcp".toList], [("80/tcp".toList, [⟨[], "80".toList⟩])]⟩) := by decide

/-- Claim C8.  The claim states Offset(Offset(p, d1), d2) = Offset(p, d1+d2).
With the source's multiplication this fails at d1 = d2 = 1 on host port
"80": the left side keeps "80" (80*1*1) while the right side yields "160"
(80*2). -/
theorem offset_not_additive_eval :
    (PublishedPorts.Offset (PublishedPorts.Offset
      ⟨["80/tcp".toList], [("80/tcp".toList, [⟨[], "80".toList⟩])]⟩ 1) 1).PortBindings
      = [("80/tcp".toList, [⟨[], "80".toList⟩])] ∧
    (PublishedPorts.Offset
      ⟨["80/tcp".toList], [("80/tcp".toList, [⟨[], "80".toList⟩])]⟩ (1 + 1)).PortBindings
      = [("80/tcp".toList, [⟨[], "160".toList⟩])] ∧
    ¬ (PublishedPorts.Offset (PublishedPorts.Offset
      ⟨["80/tcp".toList], [("80/tcp".toList, [⟨[], "80".toList⟩])]⟩ 1) 1
      = PublishedPorts.Offset
      ⟨["80/tcp".toList], [("80/tcp".toList, [⟨[], "80".toList⟩])]⟩ (1 + 1)) := by decide

/-- Claim C2.  The claim states that a publish spec naming the server
container binds on the server.  But GetAllContainerNames renders the server
name with postfix 0 ("k3d-mycluster-server-0") while createServer names the
container with postfix -1 ("k3d-mycluster-server"), so the specifier is
dropped with a warning, the resulting map is empty, and the binding reaches
neither the server's nor any worker's merged list. -/
theorem named_server_specifier_dropped_eval :
    GetAllContainerNames ("mycluster".toList) 1 1
      = ["k3d-mycluster-server-0".toList, "k3d-mycluster-worker-0".toList] ∧
    GetContainerName ("server".toList) ("mycluster".toList) (-1)
      = "k3d-mycluster-server".toList ∧
    mapNodesToPortSpecs ["6443:6443@k3d-mycluster-server".toList]
        (GetAllContainerNames ("mycluster".toList) 1 1)
      = .ok ⟨[], [("k3d-mycluster-server".toList, "6443:6443@k3d-mycluster-server".toList)]⟩ ∧
    MergePortSpecs [] ("server".toList)
        (GetContainerName ("server".toList) ("mycluster".toList) (-1)) = [] ∧
    MergePortSpecs [] ("worker".toList)
        (GetContainerName ("worker".toList) ("mycluster".toList) 0) = [] := by decide

/-- Claim C4: MergePortSpecs walks the role's groups in the declared table
order (all, server, master for server; all, workers for worker), appends
each registered spec not already present, then appends the name-specific
specs not already present; deduplication is exact string equality, so the
result has no duplicates, and the documented example merges to
["80:80", "90:90"] in that order. -/
theorem merge_port_specs_order_dedup :
    nodeRuleGroupsMap ("server".toList)
      = ["all".toList, "server".toList, "master".toList] ∧
    nodeRuleGroupsMap ("worker".toList) = ["all".toList, "workers".toList] ∧
    MergePortSpecs
      [("all".toList, ["80:80".toList]), ("k3d-c-worker-0".toList, ["90:90".toList])]
      ("worker".toList) ("k3d-c-worker-0".toList) = ["80:80".toList, "90:90".toList] ∧
    ∀ (m : List (GStr × List GStr)) (role name : GStr), (MergePortSpecs m role name).Nodup :=
  ⟨by decide, by decide, by decide, MergePortSpecs_nodup⟩

/-- Claim C3: a publish spec with no "@" suffix parses to the whole string
as the binding portion plus the single implicit specifier defaultNodes,
which the source sets to "server" (cli/commands.go line 431), and resolving
such a spec registers the binding portion under exactly that one key. -/
theorem publish_default_target_server (spec : GStr) (createdNodes : List GStr)
    (h : '@' ∉ spec) (hv : validatePortSpecs [spec] = .ok ()) :
    extractNodes spec = (["server".toList], spec) ∧
    mapNodesToPortSpecs [spec] createdNodes =
      .ok ⟨[("server".toList, [spec])], []⟩ := by
  have hs : splitOnChar '@' spec = [spec] := splitOnChar_of_not_mem h
  have he : extractNodes spec = (["server".toList], spec) := by
    unfold extractNodes
    rw [hs]
    simp [defaultNodes]
  refine ⟨he, ?_⟩
  have hposs : "server".toList ∈ possibleNodeSpecifiers createdNodes := by
    unfold possibleNodeSpecifiers
    exact List.mem_append_left _ (by decide)
  unfold mapNodesToPortSpecs
  rw [hv]
  simp only [List.foldl_cons, List.foldl_nil]
  rw [resolveSpec_eq_foldl _ _ _ (by rw [he]; simp)]
  rw [he]
  simp only [List.foldl_cons, List.foldl_nil]
  unfold resolveNode
  rw [if_pos hposs]
  rfl

theorem publish_default_target_server_witness :
    extractNodes ("80:80".toList) = (["server".toList], "80:80".toList) ∧
    mapNodesToPortSpecs ["80:80".toList] [] =
      .ok ⟨[("server".toList, ["80:80".toList])], []⟩ :=
  publish_default_target_server ("80:80".toList) [] (by decide) (by decide)

/-- Claim C5: when validation passes, resolution always succeeds; a node
specifier outside the valid set (roles plus created names) gets no entry in
the map but is recorded by a warning naming it together with the offending
spec, and every valid specifier of the same spec still receives the spec's
binding portion. -/
theorem resolver_warns_and_drops_unknown (specs createdNodes : List GStr)
    (hv : validatePortSpecs specs = .ok ()) :
    ∃ r, mapNodesToPortSpecs specs createdNodes = .ok r ∧
      (∀ node, node ∉ possibleNodeSpecifiers createdNodes →
        alistLookup r.map node = none) ∧
      (∀ s ∈ specs, ∀ node ∈ (extractNodes s).1,
        node ∈ possibleNodeSpecifiers createdNodes →
        (extractNodes s).2 ∈ lookupSpecs r.map node) ∧
      (∀ s ∈ specs, ∀ node ∈ (extractNodes s).1,
        node ∉ possibleNodeSpecifiers createdNodes → (node, s) ∈ r.warnings) := by
  refine ⟨specs.foldl (resolveSpec (possibleNodeSpecifiers createdNodes)) ⟨[], []⟩,
    ?_, ?_, ?_, ?_⟩
  · unfold mapNodesToPortSpecs
    rw [hv]
  · intro node hn
    exact foldl_resolveSpec_unknown_none _ specs _ node hn rfl
  · intro s hs node hmem hposs
    exact foldl_resolveSpec_registers _ specs _ s hs node hmem hposs
  · intro s hs node hmem hposs
    exact foldl_resolveSpec_warns _ specs _ s hs node hmem hposs

theorem resolver_warns_and_drops_unknown_witness :
    ∃ r, mapNodesToPortSpecs ["80:80@bogus-node@all".toList] [] = .ok r ∧
      (∀ node, node ∉ possibleNodeSpecifiers [] →
        alistLookup r.map node = none) ∧
      (∀ s ∈ ["80:80@bogus-node@all".toList], ∀ node ∈ (extractNodes s).1,
        node ∈ possibleNodeSpecifiers [] →
        (extractNodes s).2 ∈ lookupSpecs r.map node) ∧
      (∀ s ∈ ["80:80@bogus-node@all".toList], ∀ node ∈ (extractNodes s).1,
        node ∉ possibleNodeSpecifiers [] → (node, s) ∈ r.warnings) :=
  resolver_warns_and_drops_unknown ["80:80@bogus-node@all".toList] [] (by decide)

/-! ## Lemmas for the out-of-range host port claim -/

instance hostPortOutOfRangeDec (spec : GStr) : Decidable (hostPortOutOfRange spec) := by
  unfold hostPortOutOfRange
  infer_instance

theorem dash_not_mem_of_all_digits {s : GStr} (h : s.all Char.isDigit = true) :
    '-' ∉ s := by
  intro hm
  have hd : Char.isDigit '-' = true := by
    have := List.all_eq_true.mp h
    exact this _ hm
  exact absurd hd (by decide)

theorem ParsePortRange_error_of_out_of_range (s : GStr) (h1 : s ≠ [])
    (h2 : s.all Char.isDigit = true) (h3 : 65535 < digitsToNat s) :
    ParsePortRange s = .error s := by
  unfold ParsePortRange
  rw [if_neg h1, if_neg (dash_not_mem_of_all_digits h2)]
  have hu : parseUint16 s = none := by
    unfold parseUint16
    rw [if_neg]
    intro hcon
    have := hcon.2.2
    omega
  rw [hu]

theorem parsePortSpecCore_error_of_bad_hostPort
    (rawPort rawIP hostPort proto containerPort : GStr)
    (h1 : hostPort ≠ []) (h2 : hostPort.all Char.isDigit = true)
    (h3 : 65535 < digitsToNat hostPort) :
    ∃ e, parsePortSpecCore rawPort rawIP hostPort proto containerPort = .error e := by
  have hlen : 0 < hostPort.length := List.length_pos.mpr h1
  have hrange := ParsePortRange_error_of_out_of_range hostPort h1 h2 h3
  have hif : (if 0 < hostPort.length then ParsePortRange hostPort else .ok (0, 0))
      = Except.error hostPort := by rw [if_pos hlen, hrange]
  unfold parsePortSpecCore
  rw [hif]
  split
  · exact ⟨rawPort, rfl⟩
  · split
    · exact ⟨rawPort, rfl⟩
    · split
      · exact ⟨rawPort, rfl⟩
      · split
        · exact ⟨rawPort, rfl⟩
        · exact ⟨rawPort, rfl⟩

theorem ParsePortSpec_error_of_bad_hostPort (rawPort : GStr)
    (h1 : (splitParts rawPort).2.1 ≠ [])
    (h2 : (splitParts rawPort).2.1.all Char.isDigit = true)
    (h3 : 65535 < digitsToNat (splitParts rawPort).2.1) :
    ∃ e, ParsePortSpec rawPort = .error e :=
  parsePortSpecCore_error_of_bad_hostPort rawPort _ _ _ _ h1 h2 h3

theorem validatePortSpecs_error_of_mem :
    ∀ (specs : List GStr) (s : GStr), s ∈ specs → hostPortOutOfRange s →
      ∃ e, validatePortSpecs specs = .error e := by
  intro specs
  induction specs with
  | nil => intro s h; exact absurd h (List.not_mem_nil s)
  | cons a rest ih =>
    intro s hs hbad
    rcases List.mem_cons.mp hs with he | ht
    · subst he
      obtain ⟨e, hpe⟩ := ParsePortSpec_error_of_bad_hostPort
        ((splitOnChar '@' s).headD []) hbad.1 hbad.2.1 hbad.2.2
      refine ⟨s, ?_⟩
      unfold validatePortSpecs
      rw [hpe]
    · cases hp : ParsePortSpec ((splitOnChar '@' a).headD []) with
      | error e2 =>
        refine ⟨a, ?_⟩
        unfold validatePortSpecs
        rw [hp]
      | ok pms =>
        cases hvn : validateNodeSpecifiers ((splitOnChar '@' a).drop 1) with
        | error e3 =>
          refine ⟨a, ?_⟩
          unfold validatePortSpecs
          rw [hp, hvn]
        | ok u =>
          obtain ⟨e, he2⟩ := ih s ht hbad
          refine ⟨e, ?_⟩
          unfold validatePortSpecs
          rw [hp, hvn]
          exact he2

/-- Claim C6: a spec list containing an entry whose host-port field is a
decimal numeral above 65535 (such as "99999:80") fails validation with an
error naming a spec, resolution returns that same error, and the
published-ports builder is never reached: the whole server port pipeline
returns the validation error. -/
theorem out_of_range_host_port_rejected (specs createdNodes : List GStr)
    (clusterName apiPortSpec : GStr) (s : GStr) (hs : s ∈ specs)
    (h : hostPortOutOfRange s) :
    ∃ e, validatePortSpecs specs = .error e ∧
      mapNodesToPortSpecs specs createdNodes = .error e ∧
      clusterServerPublishedPorts specs createdNodes clusterName apiPortSpec = .error e := by
  obtain ⟨e, he⟩ := validatePortSpecs_error_of_mem specs s hs h
  refine ⟨e, he, ?_, ?_⟩
  · unfold mapNodesToPortSpecs
    rw [he]
  · unfold clusterServerPublishedPorts mapNodesToPortSpecs
    rw [he]

theorem out_of_range_host_port_rejected_witness :
    ("99999:80".toList ∈ ["99999:80".toList] ∧ hostPortOutOfRange ("99999:80".toList)) ∧
    (∃ e, validatePortSpecs ["99999:80".toList] = .error e ∧
      mapNodesToPortSpecs ["99999:80".toList] [] = .error e ∧
      clusterServerPublishedPorts ["99999:80".toList] [] ("c".toList)
        ("0.0.0.0:6443:6443/tcp".toList) = .error e) :=
  ⟨⟨by decide, by decide⟩,
    out_of_range_host_port_rejected ["99999:80".toList] [] ("c".toList)
      ("0.0.0.0:6443:6443/tcp".toList) ("99999:80".toList) (by decide) (by decide)⟩

/-! ## Lemmas for the published-ports invariant -/

theorem addPortMapping_inv (acc : List GStr × List (GStr × List PortBinding))
    (pm : PortMapping) (hinv : ∀ kv ∈ acc.2, kv.1 ∈ acc.1) :
    ∀ kv ∈ (addPortMapping acc pm).2, kv.1 ∈ (addPortMapping acc pm).1 := by
  intro kv hkv
  have h2 : (addPortMapping acc pm).2
      = alistInsert acc.2 pm.Port (((alistLookup acc.2 pm.Port).getD []) ++ [pm.Binding]) := rfl
  have h1 : (addPortMapping acc pm).1
      = (if pm.Port ∈ acc.1 then acc.1 else acc.1 ++ [pm.Port]) := rfl
  rw [h2] at hkv
  rw [h1]
  have hport : pm.Port ∈ (if pm.Port ∈ acc.1 then acc.1 else acc.1 ++ [pm.Port]) := by
    by_cases hp : pm.Port ∈ acc.1
    · simp [hp]
    · simp only [hp, if_false]
      exact List.mem_append_right _ (List.mem_singleton.mpr rfl)
  have hsub : ∀ x, x ∈ acc.1 → x ∈ (if pm.Port ∈ acc.1 then acc.1 else acc.1 ++ [pm.Port]) := by
    intro x hx
    by_cases hp : pm.Port ∈ acc.1
    · simp [hp, hx]
    · simp only [hp, if_false]
      exact List.mem_append_left _ hx
  rcases mem_alistInsert hkv with he | hm
  · rw [he]
    exact hport
  · exact hsub _ (hinv _ hm)

theorem foldl_addPortMapping_inv :
    ∀ (pms : List PortMapping) (acc : List GStr × List (GStr × List PortBinding)),
      (∀ kv ∈ acc.2, kv.1 ∈ acc.1) →
      ∀ kv ∈ (pms.foldl addPortMapping acc).2, kv.1 ∈ (pms.foldl addPortMapping acc).1
  | [], _, h => h
  | pm :: rest, acc, h =>
    foldl_addPortMapping_inv rest (addPortMapping acc pm) (addPortMapping_inv acc pm h)

theorem ParsePortSpecsAux_inv :
    ∀ (ports : List GStr) (acc r : List GStr × List (GStr × List PortBinding)),
      (∀ kv ∈ acc.2, kv.1 ∈ acc.1) → ParsePortSpecsAux acc ports = .ok r →
      ∀ kv ∈ r.2, kv.1 ∈ r.1 := by
  intro ports
  induction ports with
  | nil =>
    intro acc r hinv heq
    have hr : acc = r := by simpa [ParsePortSpecsAux] using heq
    exact hr ▸ hinv
  | cons p ps ih =>
    intro acc r hinv heq
    unfold ParsePortSpecsAux at heq
    cases hp : ParsePortSpec p with
    | error e =>
      rw [hp] at heq
      exact absurd heq (by simp)
    | ok pms =>
      rw [hp] at heq
      exact ih _ r (foldl_addPortMapping_inv pms acc hinv) heq

theorem CreatePublishedPorts_inv (specs : List GStr) (p : PublishedPorts)
    (h : CreatePublishedPorts specs = .ok p) : p.bindingKeysExposed := by
  unfold CreatePublishedPorts at h
  by_cases hlen : specs.length = 0
  · rw [if_pos hlen] at h
    cases h
    intro kv hkv
    exact absurd hkv (List.not_mem_nil kv)
  · rw [if_neg hlen] at h
    cases hps : ParsePortSpecs specs with
    | error e =>
      rw [hps] at h
      exact absurd h (by simp)
    | ok r =>
      rw [hps] at h
      cases h
      intro kv hkv
      exact ParsePortSpecsAux_inv specs ([], []) r
        (fun kv2 h2 => absurd h2 (List.not_mem_nil kv2)) hps kv hkv

theorem AddPort_inv (p : PublishedPorts) (s : GStr) (q : PublishedPorts)
    (hp : p.bindingKeysExposed) (h : p.AddPort s = .ok q) : q.bindingKeysExposed := by
  unfold PublishedPorts.AddPort at h
  cases hps : ParsePortSpec s with
  | error e =>
    rw [hps] at h
    exact absurd h (by simp)
  | ok pms =>
    rw [hps] at h
    cases h
    intro kv hkv
    exact foldl_addPortMapping_inv pms (p.ExposedPorts, p.PortBindings) hp kv hkv

theorem Offset_inv (p : PublishedPorts) (d : Int) (hp : p.bindingKeysExposed) :
    (p.Offset d).bindingKeysExposed := by
  intro kv hkv
  have hh : kv ∈ p.PortBindings.map (fun kv2 =>
      (kv2.1, kv2.2.map (fun b =>
        PortBinding.mk b.HostIP (intToStr ((ParsePortD b.HostPort : Int) * d))))) := hkv
  obtain ⟨kv0, hkv0, hmap⟩ := List.mem_map.mp hh
  have h1 : kv.1 = kv0.1 := by rw [← hmap]
  show kv.1 ∈ p.ExposedPorts
  rw [h1]
  exact hp kv0 hkv0

/-- Claim C9: the builder always establishes the invariant that every key
of the port-bindings map is also a key of the exposed-ports map, and both
AddPort and Offset preserve it; since every PublishedPorts in the program
originates from CreatePublishedPorts, every produced value satisfies it. -/
theorem published_ports_invariant_ops :
    (∀ (specs : List GStr) (p : PublishedPorts),
      CreatePublishedPorts specs = .ok p → p.bindingKeysExposed) ∧
    (∀ (p : PublishedPorts) (s : GStr) (q : PublishedPorts),
      p.bindingKeysExposed → p.AddPort s = .ok q → q.bindingKeysExposed) ∧
    (∀ (p : PublishedPorts) (d : Int),
      p.bindingKeysExposed → (p.Offset d).bindingKeysExposed) :=
  ⟨CreatePublishedPorts_inv, AddPort_inv, Offset_inv⟩

theorem published_ports_invariant_ops_witness :
    PublishedPorts.bindingKeysExposed
      ⟨["80/tcp".toList], [("80/tcp".toList, [⟨[], "80".toList⟩])]⟩ ∧
    PublishedPorts.bindingKeysExposed
      ⟨["90/tcp".toList], [("90/tcp".toList, [⟨[], "90".toList⟩])]⟩ ∧
    PublishedPorts.bindingKeysExposed (PublishedPorts.Offset
      ⟨["80/tcp".toList], [("80/tcp".toList, [⟨[], "80".toList⟩])]⟩ 2) :=
  ⟨published_ports_invariant_ops.1 ["80:80".toList] _ (by decide),
   published_ports_invariant_ops.2.1 ⟨[], []⟩ ("90:90".toList) _
     (fun kv h => absurd h (List.not_mem_nil kv)) (by decide),
   published_ports_invariant_ops.2.2 _ 2
     (published_ports_invariant_ops.1 ["80:80".toList] _ (by decide))⟩

/-- Claim C10: every host-port binding produced by Offset carries the
decimal rendering of the offset arithmetic, hence is never the empty
string; in particular a binding whose host port was empty (engine picks a
free port) is parsed as 0 by nat.ParsePort, the arithmetic is applied to 0,
and the empty-string meaning is lost. -/
theorem offset_hostports_numeral (p : PublishedPorts) (d : Int) :
    (∀ kv ∈ (p.Offset d).PortBindings, ∀ b ∈ kv.2, b.HostPort ≠ []) ∧
    (PublishedPorts.Offset
      ⟨["80/tcp".toList], [("80/tcp".toList, [⟨[], []⟩])]⟩ d).PortBindings
      = [("80/tcp".toList, [⟨[], intToStr (0 * d)⟩])] := by
  constructor
  · intro kv hkv b hb
    have hh : kv ∈ p.PortBindings.map (fun kv2 =>
        (kv2.1, kv2.2.map (fun b0 =>
          PortBinding.mk b0.HostIP (intToStr ((ParsePortD b0.HostPort : Int) * d))))) := hkv
    obtain ⟨kv0, hkv0, hmap⟩ := List.mem_map.mp hh
    have h2 : kv.2 = kv0.2.map (fun b0 =>
        PortBinding.mk b0.HostIP (intToStr ((ParsePortD b0.HostPort : Int) * d))) := by
      rw [← hmap]
    rw [h2] at hb
    obtain ⟨b0, hb0, hbm⟩ := List.mem_map.mp hb
    rw [← hbm]
    exact intToStr_ne_nil _
  · rfl
